import Mathlib

/-!
Shallow embedding of the rat_logger core pipeline (Rust) in Lean 4.

The definitions mirror, item by item, the source files
`src/config/mod.rs`, `src/core.rs`, `src/producer_consumer.rs`,
`src/handler/file.rs` and `src/handler/udp.rs`.  Byte strings are
modelled as `List Nat` (each entry a byte value), instants as `Nat`
timestamps, and channels as lists of commands processed in order.
-/

namespace RatLogger

/-- Encoded payloads (`Vec<u8>` in the source) are byte lists. -/
abbrev Bytes := List Nat

/-- `Level` from `src/config/mod.rs`: Error, Warn, Info, Debug, Trace
(discriminants 0..4 in declaration order). -/
inductive Level : Type
  | error
  | warn
  | info
  | debugL
  | traceL
deriving DecidableEq, Repr

/-- `LevelFilter` from `src/config/mod.rs`: Off, Error, Warn, Info, Debug,
Trace (discriminants 0..5 in declaration order). -/
inductive LevelFilter : Type
  | off
  | error
  | warn
  | info
  | debugL
  | traceL
deriving DecidableEq, Repr

/-- The `as u8` cast of a `Level` value (its discriminant). -/
def Level.toU8 : Level → Nat
  | .error => 0
  | .warn => 1
  | .info => 2
  | .debugL => 3
  | .traceL => 4

/-- The `as u8` / `as usize` cast of a `LevelFilter` value. -/
def LevelFilter.toU8 : LevelFilter → Nat
  | .off => 0
  | .error => 1
  | .warn => 2
  | .info => 3
  | .debugL => 4
  | .traceL => 5

/-- `Level::to_level_filter` from `src/config/mod.rs`. -/
def Level.toLevelFilter : Level → LevelFilter
  | .error => .error
  | .warn => .warn
  | .info => .info
  | .debugL => .debugL
  | .traceL => .traceL

/-- `Metadata` from `src/config/mod.rs` (string fields as byte lists). -/
structure Metadata : Type where
  level : Level
  target : Bytes
  authToken : Option Bytes
  appId : Option Bytes
deriving DecidableEq, Repr

/-- `Record` from `src/config/mod.rs`.  The `Arc<Metadata>` indirection is
flattened away (cloning shares the metadata, values compare equal). -/
structure Record : Type where
  metadata : Metadata
  args : Bytes
  modulePath : Option Bytes
  file : Option Bytes
  line : Option Nat
deriving DecidableEq, Repr

/-- `LoggerCore` from `src/core.rs`: the per-logger level filter, the
dev-mode flag, and its `ProcessorManager` reduced to the worker count
(the only manager datum the logging path consults). -/
structure LoggerCore : Type where
  level : LevelFilter
  devMode : Bool
  workerCount : Nat
deriving DecidableEq, Repr

/-- `LoggerCore::should_log` (src/core.rs:107-109):
`(level.to_level_filter() as u8) <= (self.level as u8)`. -/
def LoggerCore.shouldLog (c : LoggerCore) (level : Level) : Bool :=
  level.toLevelFilter.toU8 ≤ c.level.toU8

/-! ### The bincode standard codec (varint integers, little-endian)

`bincode::config::standard()` writes unsigned integers as a variable-length
code: values below 251 as a single byte, then marker 251/252/253/254
followed by the 2-, 4-, 8- or 16-byte little-endian representation.
Strings are a length prefix followed by their raw bytes, `Option` is a
`0`/`1` discriminant byte. -/

/-- The `k`-byte little-endian representation of `n`. -/
def leBytes : Nat → Nat → Bytes
  | 0, _ => []
  | k + 1, n => n % 256 :: leBytes k (n / 256)

/-- Read back a `k`-byte little-endian value, returning it with the
remaining input. -/
def leRead : Nat → Bytes → Option (Nat × Bytes)
  | 0, bs => some (0, bs)
  | _ + 1, [] => none
  | k + 1, b :: bs =>
    (leRead k bs).bind fun vr => some (b + 256 * vr.1, vr.2)

/-- bincode varint encoding of an unsigned integer. -/
def varintEncode (n : Nat) : Bytes :=
  if n < 251 then [n]
  else if n < 2 ^ 16 then 251 :: leBytes 2 n
  else if n < 2 ^ 32 then 252 :: leBytes 4 n
  else if n < 2 ^ 64 then 253 :: leBytes 8 n
  else 254 :: leBytes 16 n

/-- bincode varint decoding of an unsigned integer. -/
def varintDecode : Bytes → Option (Nat × Bytes)
  | [] => none
  | b :: bs =>
    if b < 251 then some (b, bs)
    else if b = 251 then leRead 2 bs
    else if b = 252 then leRead 4 bs
    else if b = 253 then leRead 8 bs
    else if b = 254 then leRead 16 bs
    else none

/-- bincode encoding of a byte string (`String`/`Vec<u8>` payload):
length prefix followed by the raw bytes. -/
def bytesEncode (s : Bytes) : Bytes :=
  varintEncode s.length ++ s

/-- bincode decoding of a byte string. -/
def bytesDecode (bs : Bytes) : Option (Bytes × Bytes) :=
  (varintDecode bs).bind fun lr =>
    if lr.2.length < lr.1 then none else some (lr.2.take lr.1, lr.2.drop lr.1)

/-- bincode encoding of an `Option`: discriminant byte then the payload. -/
def optionEncode (enc : α → Bytes) : Option α → Bytes
  | none => [0]
  | some a => 1 :: enc a

/-- bincode decoding of an `Option`. -/
def optionDecode (dec : Bytes → Option (α × Bytes)) : Bytes → Option (Option α × Bytes)
  | [] => none
  | b :: bs =>
    if b = 0 then some (none, bs)
    else if b = 1 then (dec bs).bind fun ar => some (some ar.1, ar.2)
    else none

/-- bincode encoding of a `u32` (varint; the value always fits 32 bits). -/
def u32Encode (n : Nat) : Bytes :=
  varintEncode n

/-- bincode decoding of a `u32`: a decoded value that does not fit in 32
bits is rejected. -/
def u32Decode (bs : Bytes) : Option (Nat × Bytes) :=
  (varintDecode bs).bind fun vr =>
    if vr.1 < 2 ^ 32 then some (vr.1, vr.2) else none

/-- The canonical tag the `Display` impl produces for each level
(src/config/mod.rs:41-51), as UTF-8 bytes. -/
def Level.tag : Level → Bytes
  | .error => [69, 82, 82, 79, 82]
  | .warn => [87, 65, 82, 78]
  | .info => [73, 78, 70, 79]
  | .debugL => [68, 69, 66, 85, 71]
  | .traceL => [84, 82, 65, 67, 69]

/-- `impl bincode::Encode for Level` (src/config/mod.rs:53-57): the level
is encoded as its canonical display string. -/
def Level.encode (l : Level) : Bytes :=
  bytesEncode l.tag

/-- `impl bincode::Decode for Level` (src/config/mod.rs:59-71): decode a
string and match it against the five canonical tags; anything else is a
decode error. -/
def Level.decode (bs : Bytes) : Option (Level × Bytes) :=
  (bytesDecode bs).bind fun sr =>
    if sr.1 = Level.tag .error then some (.error, sr.2)
    else if sr.1 = Level.tag .warn then some (.warn, sr.2)
    else if sr.1 = Level.tag .info then some (.info, sr.2)
    else if sr.1 = Level.tag .debugL then some (.debugL, sr.2)
    else if sr.1 = Level.tag .traceL then some (.traceL, sr.2)
    else none

/-- `impl bincode::Encode for Metadata` (src/config/mod.rs:132-139):
level, target, auth_token, app_id in declared order. -/
def Metadata.encode (m : Metadata) : Bytes :=
  m.level.encode ++ bytesEncode m.target ++ optionEncode bytesEncode m.authToken
    ++ optionEncode bytesEncode m.appId

/-- `impl bincode::Decode for Metadata` (src/config/mod.rs:141-154); the
sequencing with `?` is `Option.bind`. -/
def Metadata.decode (bs : Bytes) : Option (Metadata × Bytes) :=
  (Level.decode bs).bind fun l1 =>
  (bytesDecode l1.2).bind fun t2 =>
  (optionDecode bytesDecode t2.2).bind fun a3 =>
  (optionDecode bytesDecode a3.2).bind fun i4 =>
  some (⟨l1.1, t2.1, a3.1, i4.1⟩, i4.2)

/-- `impl bincode::Encode for Record` (src/config/mod.rs:182-190):
metadata, args, module_path, file, line in declared order. -/
def Record.encode (r : Record) : Bytes :=
  r.metadata.encode ++ bytesEncode r.args ++ optionEncode bytesEncode r.modulePath
    ++ optionEncode bytesEncode r.file ++ optionEncode u32Encode r.line

/-- `impl bincode::Decode for Record` (src/config/mod.rs:192-207); the
sequencing with `?` is `Option.bind`. -/
def Record.decode (bs : Bytes) : Option (Record × Bytes) :=
  (Metadata.decode bs).bind fun m1 =>
  (bytesDecode m1.2).bind fun a2 =>
  (optionDecode bytesDecode a2.2).bind fun p3 =>
  (optionDecode bytesDecode p3.2).bind fun f4 =>
  (optionDecode u32Decode f4.2).bind fun n5 =>
  some (⟨m1.1, a2.1, p3.1, f4.1, n5.1⟩, n5.2)

/-- Well-formedness a `Record` enjoys by construction in Rust: every
string field is a `String` (byte length below `2^64`, the `usize` range)
and `line` is a `u32`. -/
def Record.WF (r : Record) : Prop :=
  r.metadata.target.length < 2 ^ 64 ∧
  (r.metadata.authToken.getD []).length < 2 ^ 64 ∧
  (r.metadata.appId.getD []).length < 2 ^ 64 ∧
  r.args.length < 2 ^ 64 ∧
  (r.modulePath.getD []).length < 2 ^ 64 ∧
  (r.file.getD []).length < 2 ^ 64 ∧
  r.line.getD 0 < 2 ^ 32

instance (r : Record) : Decidable r.WF := by
  unfold Record.WF
  infer_instance

/-! ### Commands, worker loop and dispatcher (src/core.rs, src/producer_consumer.rs) -/

/-- `LogCommand` from src/core.rs:33-48.  The `HealthCheck` reply channel
is abstracted away (the worker always answers `true`). -/
inductive LogCommand : Type
  | write (data : Bytes)
  | writeForce (data : Bytes)
  | rotate
  | compress (path : String)
  | flush
  | shutdown (source : String)
  | healthCheck
deriving DecidableEq, Repr

/-- The observable interactions of a worker with its sink, in order.
`processedOne`/`processedBatch` are calls to `LogProcessor::process` /
`process_batch`; the rest mirror the remaining trait methods. -/
inductive SinkEvent : Type
  | processedOne (data : Bytes)
  | processedBatch (batch : List Bytes)
  | rotated
  | compressed (path : String)
  | flushed
  | cleaned
  | healthOk
deriving DecidableEq, Repr

/-- The payloads a sink event delivers to the sink medium. -/
def SinkEvent.deliveredOf : SinkEvent → List Bytes
  | .processedOne b => [b]
  | .processedBatch bs => bs
  | _ => []

/-- All payloads delivered across an event trace, in order. -/
def delivered (evs : List SinkEvent) : List Bytes :=
  (evs.map SinkEvent.deliveredOf).flatten

/-- `BatchConfig` from src/producer_consumer.rs:67-75. -/
structure BatchConfig : Type where
  batchSize : Nat
  batchIntervalMs : Nat
  bufferSize : Nat
deriving DecidableEq, Repr

/-- Mutable worker-loop state of `ProcessorWorker::worker_thread`
(src/producer_consumer.rs:210-212): the batch buffer, the `last_flush`
instant (a `Nat` timestamp) and the sink-interaction trace so far. -/
structure WorkerState : Type where
  buffer : List Bytes
  lastFlush : Nat
  events : List SinkEvent
deriving DecidableEq, Repr

/-- `ProcessorWorker::process_batch` (src/producer_consumer.rs:308-319)
specialised to the event-trace sink: an empty batch is a no-op, otherwise
the whole batch goes to `LogProcessor::process_batch` and the buffer is
cleared.  Returns the new buffer and the extended trace. -/
def processBatchHelper (buffer : List Bytes) (events : List SinkEvent) :
    List Bytes × List SinkEvent :=
  if buffer.isEmpty then (buffer, events)
  else ([], events ++ [.processedBatch buffer])

/-- `ProcessorWorker::process_batch` (src/producer_consumer.rs:308-319)
over an arbitrary sink: `procBatch` is the sink's `process_batch`, which
may fail.  The helper forwards the failure but clears the batch buffer
unconditionally (`batch.clear()` runs before `result` is returned). -/
def ProcessorWorker.processBatch {σ : Type}
    (procBatch : σ → List Bytes → σ × Except String Unit)
    (proc : σ) (batch : List Bytes) : σ × List Bytes × Except String Unit :=
  if batch.isEmpty then (proc, batch, .ok ())
  else
    let r := procBatch proc batch
    (r.1, [], r.2)

/-- The events a buffer hand-off produces: nothing when empty, one
`process_batch` call otherwise. -/
def batchEvents (buffer : List Bytes) : List SinkEvent :=
  if buffer.isEmpty then [] else [.processedBatch buffer]

/-- One iteration of `ProcessorWorker::worker_thread`
(src/producer_consumer.rs:214-304) on command `cmd` received at time
`now`.  Returns the new state and whether the loop continues.

The `writeForce` arm is absent from src (only the enum variant and the
`emergency_log` caller appear there); it is
Modelled from the spec: "`WriteForce(b)`: first call `process_batch(&buffer)`
with whatever is pending, clear, then call `process(&b)` synchronously,
then `flush()`". -/
def ProcessorWorker.step (cfg : BatchConfig) (now : Nat) (cmd : LogCommand)
    (s : WorkerState) : WorkerState × Bool :=
  match cmd with
  | .write data =>
    let buf := s.buffer ++ [data]
    if cfg.batchSize ≤ buf.length ∨ cfg.batchIntervalMs ≤ now - s.lastFlush then
      let r := processBatchHelper buf s.events
      (⟨r.1, now, r.2⟩, true)
    else
      ({ s with buffer := buf }, true)
  | .writeForce data =>
    let r := processBatchHelper s.buffer s.events
    (⟨r.1, s.lastFlush, r.2 ++ [.processedOne data, .flushed]⟩, true)
  | .rotate =>
    if s.buffer.isEmpty then
      ({ s with events := s.events ++ [.rotated] }, true)
    else
      let r := processBatchHelper s.buffer s.events
      (⟨r.1, now, r.2 ++ [.rotated]⟩, true)
  | .compress p =>
    if s.buffer.isEmpty then
      ({ s with events := s.events ++ [.compressed p] }, true)
    else
      let r := processBatchHelper s.buffer s.events
      (⟨r.1, now, r.2 ++ [.compressed p]⟩, true)
  | .flush =>
    let r := if s.buffer.isEmpty then (s.buffer, s.events)
      else processBatchHelper s.buffer s.events
    (⟨r.1, now, r.2 ++ [.flushed]⟩, true)
  | .shutdown _ =>
    let r := if s.buffer.isEmpty then (s.buffer, s.events)
      else processBatchHelper s.buffer s.events
    (⟨r.1, s.lastFlush, r.2 ++ [.flushed, .cleaned]⟩, false)
  | .healthCheck =>
    ({ s with events := s.events ++ [.healthOk] }, true)

/-- The worker loop: process timestamped commands in channel order until
the channel is exhausted or a `Shutdown` breaks the loop. -/
def ProcessorWorker.run (cfg : BatchConfig) (s : WorkerState) :
    List (Nat × LogCommand) → WorkerState
  | [] => s
  | (now, cmd) :: rest =>
    let r := ProcessorWorker.step cfg now cmd s
    if r.2 then ProcessorWorker.run cfg r.1 rest else r.1

/-- The record payload a command carries (`Write`/`WriteForce`), if any. -/
def LogCommand.payloadOf : LogCommand → List Bytes
  | .write d => [d]
  | .writeForce d => [d]
  | _ => []

/-- Whether a command is the `Shutdown` that breaks the worker loop. -/
def LogCommand.isShutdown : LogCommand → Bool
  | .shutdown _ => true
  | _ => false

/-- The accumulated byte size of a list of encoded records. -/
def byteSize (bs : List Bytes) : Nat :=
  (bs.map List.length).sum

/-- A concrete record exercising every field, used to instantiate
universally quantified theorems. -/
def sampleRecord : Record :=
  ⟨⟨.warn, [97, 98], some [99], none⟩, [104, 105], none, some [102], some 42⟩

/-- A concrete `Error`-level record, used to instantiate universally
quantified theorems. -/
def sampleErrorRecord : Record :=
  ⟨⟨.error, [116], none, some [97]⟩, [101, 114, 114], none, none, some 7⟩

/-- All record payloads of a command sequence, in channel order. -/
def commandPayloads (cmds : List (Nat × LogCommand)) : List Bytes :=
  (cmds.map fun c => c.2.payloadOf).flatten

/-- The prefix of the channel the worker actually processes: everything
up to and including the first `Shutdown`. -/
def takeUntilShutdown : List (Nat × LogCommand) → List (Nat × LogCommand)
  | [] => []
  | (now, cmd) :: rest =>
    match cmd with
    | .shutdown src => [(now, .shutdown src)]
    | _ => (now, cmd) :: takeUntilShutdown rest

/-- `ProcessorManager::broadcast_write` (src/producer_consumer.rs:457-469)
with the manager reduced to its worker count: worker `i` receives
`Write(data.clone())`. -/
def broadcastWrite (workerCount : Nat) (data : Bytes) : List (Nat × LogCommand) :=
  (List.range workerCount).map fun i => (i, LogCommand.write data)

/-- Modelled from the spec: `ProcessorManager::broadcast_write_force` is
called from `LoggerCore::emergency_log` but its definition is not under
src; per spec §4.3 the fan-out is "symmetric" with `broadcast_write`, so
worker `i` receives `WriteForce(data.clone())`. -/
def broadcastWriteForce (workerCount : Nat) (data : Bytes) : List (Nat × LogCommand) :=
  (List.range workerCount).map fun i => (i, LogCommand.writeForce data)

/-! ### Logger core operations (src/core.rs) -/

/-- The externally visible actions of a `LoggerCore` call: serializing a
record, and handing a command to the manager for broadcast. -/
inductive CoreEffect : Type
  | encodeRec (r : Record)
  | broadcast (cmd : LogCommand)
deriving DecidableEq, Repr

/-- `LoggerCore::emergency_log` (src/core.rs:185-191): encode the record
and broadcast it with the force-write command, gated by nothing. -/
def LoggerCore.emergencyLog (_c : LoggerCore) (r : Record) : List CoreEffect :=
  [.encodeRec r, .broadcast (.writeForce (Record.encode r))]

/-- `LoggerCore::log` (src/core.rs:143-162): level gate, auto-promotion of
`Error` to the emergency path, otherwise encode + broadcast write (plus a
broadcast flush in dev mode). -/
def LoggerCore.log (c : LoggerCore) (r : Record) : List CoreEffect :=
  if c.shouldLog r.metadata.level then
    if r.metadata.level = .error then
      c.emergencyLog r
    else
      [.encodeRec r, .broadcast (.write (Record.encode r))] ++
        (if c.devMode then [.broadcast .flush] else [])
  else []

/-- `set_max_level` (src/core.rs:464-467): the value stored into the
process-wide `MAX_LEVEL` atomic (`level as usize`). -/
def setMaxLevel (l : LevelFilter) : Nat :=
  l.toU8

/-- `max_level` (src/core.rs:469-480): read the atomic back. -/
def maxLevel : Nat → LevelFilter
  | 0 => .off
  | 1 => .error
  | 2 => .warn
  | 3 => .info
  | 4 => .debugL
  | 5 => .traceL
  | _ => .info

/-- `LoggerCore::set_level` (src/core.rs:169-172): it takes `&self` and
only stores into the global `MAX_LEVEL` atomic.  The pair is the logger
(necessarily unchanged) and the new atomic value. -/
def LoggerCore.setLevel (c : LoggerCore) (_global : Nat) (l : LevelFilter) :
    LoggerCore × Nat :=
  (c, setMaxLevel l)

/-! ### Init handshake (src/producer_consumer.rs:45-64, 552-598) -/

/-- `wait_for_all_ready` (src/producer_consumer.rs:45-64): poll the global
ready counter (10 ms interval) until it reaches `expected` or the timeout
elapses.  Time is abstracted to poll indices: `readyAt i` is the counter
value observed at the `i`-th poll, `maxPolls` the number of polls the
timeout window allows. -/
def waitForAllReady (expected : Nat) (readyAt : Nat → Nat) (maxPolls : Nat) :
    Except String Unit :=
  if expected = 0 then .ok ()
  else if (List.range maxPolls).any fun i => expected ≤ readyAt i then .ok ()
  else .error "worker ready timeout"

/-- `ProcessorManager::check_specific_types`
(src/producer_consumer.rs:552-598): count the workers whose type is
expected but not yet verified; subtract the counter value already
observed; wait for the counter to reach the difference.  The global
counter is never reset on this path. -/
def checkSpecificTypes (workers verified expectedTypes : List String)
    (readyAt : Nat → Nat) (maxPolls : Nat) : Except String Unit :=
  let expectedWorkers := workers.filter fun t =>
    expectedTypes.contains t && !(verified.contains t)
  if expectedWorkers.isEmpty then .ok ()
  else
    let currentReady := readyAt 0
    let remaining := expectedWorkers.length - currentReady
    if remaining = 0 then .ok ()
    else waitForAllReady remaining readyAt maxPolls

/-! ### File-sink pruning (src/handler/file.rs:598-649) -/

/-- A file on disk: the directory it sits in (path components), its name
and its modification time. -/
structure FsFile : Type where
  dir : List String
  name : String
  mtime : Nat
deriving DecidableEq, Repr

/-- `Path::extension`: the suffix after the final dot of the file name. -/
def extensionOf (name : String) : Option String :=
  let parts := name.splitOn "."
  if parts.length < 2 then none else parts.getLast?

/-- Stable insertion by modification time (ties keep existing order),
mirroring the stable `sort_by` on `a_time.cmp(&b_time)`. -/
def insertByMtime (f : FsFile) : List FsFile → List FsFile
  | [] => [f]
  | g :: gs => if f.mtime < g.mtime then f :: g :: gs else g :: insertByMtime f gs

/-- Stable sort of directory entries by modification time. -/
def sortByMtime : List FsFile → List FsFile
  | [] => []
  | f :: fs => insertByMtime f (sortByMtime fs)

/-- `LogRotator::cleanup_old_files` (src/handler/file.rs:614-648): list
the entries of `base_path.parent()`, keep those with extension `log` or
`lz4`, sort by modification time, and delete the oldest until at most
`max_files` remain.  `fs` is the file system as a list of files. -/
def cleanupOldFiles (fs : List FsFile) (basePath : List String) (maxFiles : Nat) :
    List FsFile :=
  let dirPath := basePath.dropLast
  let cands := fs.filter fun f =>
    f.dir = dirPath &&
      (extensionOf f.name = some "log" || extensionOf f.name = some "lz4")
  let sorted := sortByMtime cands
  let deleted := sorted.take (sorted.length - maxFiles)
  fs.filter fun f => !(deleted.contains f)

/-- A file name matching the glob `app_*.log*` used by the claimed
retention invariant (checked on the character list of the name). -/
def matchesAppLog (name : String) : Bool :=
  ("app_".data).isPrefixOf name.data
    && ((".log".data).isSuffixOf name.data || (".log.lz4".data).isSuffixOf name.data)

/-- How many `app_*.log*` files a directory holds. -/
def appLogCount (fs : List FsFile) (logDir : List String) : Nat :=
  (fs.filter fun f => f.dir = logDir && matchesAppLog f.name).length

/-! ### UDP sink (src/handler/udp.rs) -/

/-- The mutable state of `UdpProcessor` that `send_batch` touches: the
datagram buffer, the running byte counter and the `last_flush` instant. -/
structure UdpState : Type where
  buffer : List Bytes
  currentBatchSize : Nat
  lastFlush : Nat
deriving DecidableEq, Repr

/-- `UdpProcessor::send_batch` (src/handler/udp.rs:218-259): if the buffer
is empty return at once leaving everything unchanged; otherwise drain the
buffer, handing every datagram to the socket in order (retries
abstracted), zero the byte counter and stamp `last_flush`.  Returns the
datagrams sent and the new state. -/
def UdpProcessor.sendBatch (s : UdpState) (now : Nat) : List Bytes × UdpState :=
  if s.buffer.isEmpty then ([], s)
  else (s.buffer, ⟨[], 0, now⟩)

/-- `UdpProcessor::flush` (src/handler/udp.rs:320-323): it just calls
`send_batch`. -/
def UdpProcessor.flush (s : UdpState) (now : Nat) : List Bytes × UdpState :=
  UdpProcessor.sendBatch s now

/-! ### Codec round-trip lemmas -/

theorem leRead_leBytes (k : Nat) :
    ∀ (n : Nat) (t : Bytes), n < 256 ^ k → leRead k (leBytes k n ++ t) = some (n, t) := by
  induction k with
  | zero =>
    intro n t h
    have hn : n = 0 := Nat.lt_one_iff.mp (by simpa using h)
    subst hn
    simp [leBytes, leRead]
  | succ k ih =>
    intro n t h
    have hdiv : n / 256 < 256 ^ k := by
      rw [Nat.div_lt_iff_lt_mul (by norm_num)]
      calc n < 256 ^ (k + 1) := h
        _ = 256 ^ k * 256 := by ring
    have hstep : leBytes (k + 1) n ++ t = n % 256 :: (leBytes k (n / 256) ++ t) := by
      simp [leBytes]
    rw [hstep]
    simp only [leRead]
    rw [ih (n / 256) t hdiv, Option.some_bind]
    simp [Nat.mod_add_div]

theorem varintDecode_encode (n : Nat) (t : Bytes) (h : n < 2 ^ 64) :
    varintDecode (varintEncode n ++ t) = some (n, t) := by
  unfold varintEncode
  by_cases h1 : n < 251
  · simp [h1, varintDecode]
  · rw [if_neg h1]
    by_cases h2 : n < 2 ^ 16
    · rw [if_pos h2]
      have hle := leRead_leBytes 2 n t (by norm_num at h2 ⊢; omega)
      simp [varintDecode, hle]
    · rw [if_neg h2]
      by_cases h3 : n < 2 ^ 32
      · rw [if_pos h3]
        have hle := leRead_leBytes 4 n t (by norm_num at h3 ⊢; omega)
        simp [varintDecode, hle]
      · rw [if_neg h3, if_pos h]
        have hle := leRead_leBytes 8 n t (by norm_num at h ⊢; omega)
        simp [varintDecode, hle]

theorem bytesDecode_encode (s t : Bytes) (h : s.length < 2 ^ 64) :
    bytesDecode (bytesEncode s ++ t) = some (s, t) := by
  unfold bytesEncode bytesDecode
  rw [List.append_assoc, varintDecode_encode s.length (s ++ t) h]
  have hlen : ¬ (s ++ t).length < s.length := by
    simp [List.length_append]
  simp [hlen, List.take_left, List.drop_left]

theorem optionDecode_encode {α : Type} (enc : α → Bytes) (dec : Bytes → Option (α × Bytes))
    (p : α → Prop) (hrt : ∀ a t, p a → dec (enc a ++ t) = some (a, t)) :
    ∀ (o : Option α) (t : Bytes), (∀ a ∈ o, p a) →
      optionDecode dec (optionEncode enc o ++ t) = some (o, t) := by
  intro o t ho
  cases o with
  | none => simp [optionEncode, optionDecode]
  | some a =>
    simp [optionEncode, optionDecode, hrt a t (ho a rfl)]

theorem levelDecode_encode (l : Level) (t : Bytes) :
    Level.decode (Level.encode l ++ t) = some (l, t) := by
  unfold Level.decode Level.encode
  cases l <;>
    · rw [bytesDecode_encode _ t (by norm_num [Level.tag])]
      simp [Level.tag]

theorem metadataDecode_encode (m : Metadata) (t : Bytes)
    (h1 : m.target.length < 2 ^ 64) (h2 : (m.authToken.getD []).length < 2 ^ 64)
    (h3 : (m.appId.getD []).length < 2 ^ 64) :
    Metadata.decode (Metadata.encode m ++ t) = some (m, t) := by
  have hopt : ∀ (o : Option Bytes) (u : Bytes), (o.getD []).length < 2 ^ 64 →
      optionDecode bytesDecode (optionEncode bytesEncode o ++ u) = some (o, u) := by
    intro o u ho
    refine optionDecode_encode bytesEncode bytesDecode (fun s => s.length < 2 ^ 64)
      (fun a u ha => bytesDecode_encode a u ha) o u ?_
    intro a ha
    cases o with
    | none => cases ha
    | some b => cases ha; simpa using ho
  unfold Metadata.encode Metadata.decode
  rw [List.append_assoc, List.append_assoc, List.append_assoc,
    levelDecode_encode, Option.some_bind, bytesDecode_encode _ _ h1, Option.some_bind,
    hopt _ _ h2, Option.some_bind, hopt _ _ h3, Option.some_bind]

theorem recordDecode_encode (r : Record) (h : r.WF) :
    Record.decode (Record.encode r) = some (r, []) := by
  obtain ⟨h1, h2, h3, h4, h5, h6, h7⟩ := h
  have hopt : ∀ (o : Option Bytes) (u : Bytes), (o.getD []).length < 2 ^ 64 →
      optionDecode bytesDecode (optionEncode bytesEncode o ++ u) = some (o, u) := by
    intro o u ho
    refine optionDecode_encode bytesEncode bytesDecode (fun s => s.length < 2 ^ 64)
      (fun a u ha => bytesDecode_encode a u ha) o u ?_
    intro a ha
    cases o with
    | none => cases ha
    | some b => cases ha; simpa using ho
  have hline : optionDecode u32Decode (optionEncode u32Encode r.line ++ []) =
      some (r.line, []) := by
    refine optionDecode_encode u32Encode u32Decode (fun n => n < 2 ^ 32) ?_ r.line [] ?_
    · intro a u ha
      have ha' : a < 4294967296 := by simpa using ha
      unfold u32Encode u32Decode
      rw [varintDecode_encode a u (lt_trans ha (by norm_num))]
      simp [ha']
    · intro a ha
      cases hr : r.line with
      | none => rw [hr] at ha; cases ha
      | some b => rw [hr] at ha; cases ha; rw [hr] at h7; simpa using h7
  unfold Record.encode Record.decode
  rw [List.append_assoc, List.append_assoc, List.append_assoc,
    show (optionEncode u32Encode r.line : Bytes) =
      optionEncode u32Encode r.line ++ [] by simp,
    metadataDecode_encode r.metadata _ h1 h2 h3, Option.some_bind,
    bytesDecode_encode _ _ h4, Option.some_bind,
    hopt _ _ h5, Option.some_bind, hopt _ _ h6, Option.some_bind,
    hline, Option.some_bind]

theorem levelDecode_unknown_tag (s t : Bytes) (hlen : s.length < 2 ^ 64)
    (h : s ∉ [Level.tag .error, Level.tag .warn, Level.tag .info,
      Level.tag .debugL, Level.tag .traceL]) :
    Level.decode (bytesEncode s ++ t) = none := by
  simp only [List.mem_cons, List.mem_singleton, not_or] at h
  obtain ⟨he, hw, hi, hd, ht, -⟩ := h
  unfold Level.decode
  rw [bytesDecode_encode s t hlen, Option.some_bind]
  simp [he, hw, hi, hd, ht]

/-! ### Worker-loop invariants -/

theorem delivered_append (es fs : List SinkEvent) :
    delivered (es ++ fs) = delivered es ++ delivered fs := by
  simp [delivered]

theorem delivered_nil : delivered [] = [] := rfl

theorem delivered_cons (e : SinkEvent) (es : List SinkEvent) :
    delivered (e :: es) = e.deliveredOf ++ delivered es := by
  simp [delivered]

theorem delivered_batchEvents (buf : List Bytes) :
    delivered (batchEvents buf) = buf := by
  unfold batchEvents delivered
  cases buf <;> simp [SinkEvent.deliveredOf]

theorem processBatchHelper_fst (buf : List Bytes) (evs : List SinkEvent) :
    (processBatchHelper buf evs).1 = [] := by
  unfold processBatchHelper
  cases buf <;> simp

theorem processBatchHelper_snd (buf : List Bytes) (evs : List SinkEvent) :
    (processBatchHelper buf evs).2 = evs ++ batchEvents buf := by
  unfold processBatchHelper batchEvents
  cases buf <;> simp

theorem step_snd (cfg : BatchConfig) (now : Nat) (cmd : LogCommand) (s : WorkerState) :
    (ProcessorWorker.step cfg now cmd s).2 = !cmd.isShutdown := by
  cases cmd <;> simp only [ProcessorWorker.step, LogCommand.isShutdown] <;>
    first
      | rfl
      | (split <;> rfl)

theorem step_delivered (cfg : BatchConfig) (now : Nat) (cmd : LogCommand)
    (s : WorkerState) :
    delivered (ProcessorWorker.step cfg now cmd s).1.events
        ++ (ProcessorWorker.step cfg now cmd s).1.buffer
      = delivered s.events ++ s.buffer ++ cmd.payloadOf := by
  cases cmd with
  | write d =>
    simp only [ProcessorWorker.step, LogCommand.payloadOf]
    split
    · simp [processBatchHelper_fst, processBatchHelper_snd, delivered_append,
        delivered_batchEvents]
    · simp [List.append_assoc]
  | writeForce d =>
    simp [ProcessorWorker.step, LogCommand.payloadOf, processBatchHelper_fst,
      processBatchHelper_snd, delivered_append, delivered_batchEvents,
      delivered_cons, delivered_nil, SinkEvent.deliveredOf]
  | rotate =>
    simp only [ProcessorWorker.step, LogCommand.payloadOf]
    split
    · simp [delivered_append, delivered_cons, delivered_nil, SinkEvent.deliveredOf]
    · simp [processBatchHelper_fst, processBatchHelper_snd, delivered_append,
        delivered_batchEvents, delivered_cons, delivered_nil, SinkEvent.deliveredOf]
  | compress p =>
    simp only [ProcessorWorker.step, LogCommand.payloadOf]
    split
    · simp [delivered_append, delivered_cons, delivered_nil, SinkEvent.deliveredOf]
    · simp [processBatchHelper_fst, processBatchHelper_snd, delivered_append,
        delivered_batchEvents, delivered_cons, delivered_nil, SinkEvent.deliveredOf]
  | flush =>
    simp only [ProcessorWorker.step, LogCommand.payloadOf]
    split
    · next hbuf =>
      simp only [List.isEmpty_iff] at hbuf
      simp [hbuf, delivered_append, delivered_cons, delivered_nil,
        SinkEvent.deliveredOf]
    · simp [processBatchHelper_fst, processBatchHelper_snd, delivered_append,
        delivered_batchEvents, delivered_cons, delivered_nil, SinkEvent.deliveredOf]
  | shutdown src =>
    simp only [ProcessorWorker.step, LogCommand.payloadOf]
    split
    · next hbuf =>
      simp only [List.isEmpty_iff] at hbuf
      simp [hbuf, delivered_append, delivered_cons, delivered_nil,
        SinkEvent.deliveredOf]
    · simp [processBatchHelper_fst, processBatchHelper_snd, delivered_append,
        delivered_batchEvents, delivered_cons, delivered_nil, SinkEvent.deliveredOf]
  | healthCheck =>
    simp [ProcessorWorker.step, LogCommand.payloadOf, delivered_append,
      delivered_cons, delivered_nil, SinkEvent.deliveredOf]

theorem run_delivered (cfg : BatchConfig) :
    ∀ (cmds : List (Nat × LogCommand)) (s : WorkerState),
      delivered (ProcessorWorker.run cfg s cmds).events
          ++ (ProcessorWorker.run cfg s cmds).buffer
        = delivered s.events ++ s.buffer
            ++ commandPayloads (takeUntilShutdown cmds) := by
  intro cmds
  induction cmds with
  | nil =>
    intro s
    simp [ProcessorWorker.run, commandPayloads, takeUntilShutdown]
  | cons c rest ih =>
    intro s
    obtain ⟨now, cmd⟩ := c
    by_cases hsd : cmd.isShutdown = true
    · have hcmd : ∃ src, cmd = .shutdown src := by
        cases cmd <;> simp [LogCommand.isShutdown] at hsd ⊢
      obtain ⟨src, rfl⟩ := hcmd
      have hstop : (ProcessorWorker.step cfg now (.shutdown src) s).2 = false := by
        rw [step_snd]; rfl
      simp only [ProcessorWorker.run, hstop, Bool.false_eq_true, if_false]
      have := step_delivered cfg now (.shutdown src) s
      simp only [LogCommand.payloadOf] at this
      simp [this, takeUntilShutdown, commandPayloads, LogCommand.payloadOf]
    · have hcont : (ProcessorWorker.step cfg now cmd s).2 = true := by
        rw [step_snd]
        simp [Bool.eq_false_iff.mpr] at hsd ⊢
        exact hsd
      simp only [ProcessorWorker.run, hcont, if_true]
      rw [ih ((ProcessorWorker.step cfg now cmd s).1), step_delivered]
      have htk : takeUntilShutdown ((now, cmd) :: rest)
          = (now, cmd) :: takeUntilShutdown rest := by
        cases cmd <;> simp [takeUntilShutdown, LogCommand.isShutdown] at hsd ⊢
      rw [htk]
      simp [commandPayloads, List.append_assoc]

/-! ### Claim theorems -/

/-- C7: for every `Record` `r`, decoding the binary encoding of `r`
succeeds and yields a record equal to `r` on every field, the level being
encoded as its canonical string tag; and decoding a payload whose level
tag is not one of ERROR, WARN, INFO, DEBUG, TRACE fails with a decode
error. -/
theorem claim_C7_codec_roundtrip :
    (∀ r : Record, r.WF → Record.decode (Record.encode r) = some (r, [])) ∧
    (∀ s t : Bytes, s.length < 2 ^ 64 →
      s ∉ [Level.tag .error, Level.tag .warn, Level.tag .info,
        Level.tag .debugL, Level.tag .traceL] →
      Level.decode (bytesEncode s ++ t) = none) :=
  ⟨fun r h => recordDecode_encode r h,
   fun s t h1 h2 => levelDecode_unknown_tag s t h1 h2⟩

/-- Witness for C7: the round trip at a concrete record populating every
field, and decode failure at the concrete unknown tag "FATAL". -/
theorem claim_C7_codec_roundtrip_witness :
    Record.decode (Record.encode sampleRecord) = some (sampleRecord, []) ∧
    Level.decode (bytesEncode [70, 65, 84, 65, 76] ++ [7]) = none :=
  ⟨claim_C7_codec_roundtrip.1 sampleRecord (by decide),
   claim_C7_codec_roundtrip.2 [70, 65, 84, 65, 76] [7] (by decide) (by decide)⟩

/-- C4: a record whose level does not pass the configured filter
(`r.level > filter` in the `Error < Warn < Info < Debug < Trace` order)
makes `log` return immediately: no effect at all, in particular no
encoding and no broadcast command. -/
theorem claim_C4_level_gate_frame (c : LoggerCore) (r : Record)
    (h : c.level.toU8 < r.metadata.level.toLevelFilter.toU8) :
    c.log r = [] := by
  have hgate : c.shouldLog r.metadata.level = false := by
    unfold LoggerCore.shouldLog
    simp only [decide_eq_false_iff_not]
    omega
  simp [LoggerCore.log, hgate]

/-- Witness for C4: an `Info` record against a `Warn` filter. -/
theorem claim_C4_level_gate_frame_witness :
    ((⟨.warn, false, 3⟩ : LoggerCore)).level.toU8
        < (Level.info).toLevelFilter.toU8 ∧
    ((⟨.warn, false, 3⟩ : LoggerCore)).log
        ⟨⟨.info, [], none, none⟩, [], none, none, none⟩ = [] :=
  ⟨by decide, claim_C4_level_gate_frame _ _ (by decide)⟩

/-- C9: `set_level(l)` only stores into the process-wide `MAX_LEVEL`
atomic: the logger value is unchanged, so its gate `should_log`, its
`log` behaviour and the value `level()` returns are the same afterwards,
for every `l`. -/
theorem claim_C9_setLevel_frame (c : LoggerCore) (g : Nat) (l : LevelFilter) :
    (c.setLevel g l).1 = c ∧
    (∀ lv : Level, ((c.setLevel g l).1).shouldLog lv = c.shouldLog lv) ∧
    ((c.setLevel g l).1).level = c.level ∧
    (∀ r : Record, ((c.setLevel g l).1).log r = c.log r) ∧
    (c.setLevel g l).2 = setMaxLevel l :=
  ⟨rfl, fun _ => rfl, rfl, fun _ => rfl, rfl⟩

/-- C10: whenever the worker hands its batch buffer to the sink through
the `process_batch` helper, the buffer comes back empty even when the
sink fails: the failed batch is dropped after a single sink invocation,
never retained or retried. -/
theorem claim_C10_failed_batch_dropped {σ : Type}
    (procBatch : σ → List Bytes → σ × Except String Unit) (proc : σ)
    (batch : List Bytes) :
    (ProcessorWorker.processBatch procBatch proc batch).2.1 = [] ∧
    (batch ≠ [] →
      ProcessorWorker.processBatch procBatch proc batch
        = ((procBatch proc batch).1, [], (procBatch proc batch).2)) ∧
    (batch = [] →
      ProcessorWorker.processBatch procBatch proc batch = (proc, [], .ok ())) := by
  unfold ProcessorWorker.processBatch
  cases batch <;> simp

/-- Witness for C10: a sink whose `process_batch` always fails; the
helper still returns an empty buffer and the error after one call. -/
theorem claim_C10_failed_batch_dropped_witness :
    (ProcessorWorker.processBatch
        (fun (n : Nat) (_ : List Bytes) => (n + 1, (.error "disk full" : Except String Unit)))
        0 [[1, 2]]).2.1 = [] ∧
    ProcessorWorker.processBatch
        (fun (n : Nat) (_ : List Bytes) => (n + 1, (.error "disk full" : Except String Unit)))
        0 [[1, 2]]
      = (1, [], .error "disk full") := by
  refine ⟨(claim_C10_failed_batch_dropped _ 0 [[1, 2]]).1, ?_⟩
  have h := (claim_C10_failed_batch_dropped
    (fun (n : Nat) (_ : List Bytes) => (n + 1, (.error "disk full" : Except String Unit)))
    0 [[1, 2]]).2.1 (by simp)
  simpa using h

/-- C8 counterexample: with one buffered datagram, `UdpProcessor::flush`
is not a no-op — it hands the datagram to the socket and changes the
sink state (it drains the buffer via `send_batch`). -/
theorem claim_C8_counterexample :
    ¬ ((UdpProcessor.flush ⟨[[120]], 1, 0⟩ 5).1 = [] ∧
       (UdpProcessor.flush ⟨[[120]], 1, 0⟩ 5).2 = ⟨[[120]], 1, 0⟩) := by
  decide

/-- C8 amended: `flush()` forwards to `send_batch`: it sends exactly the
buffered datagrams in order and resets the buffer, byte counter and
flush timestamp; it sends nothing and leaves the state unchanged only
when the buffer is already empty. -/
theorem claim_C8_flush_drains (s : UdpState) (now : Nat) :
    (UdpProcessor.flush s now).1 = s.buffer ∧
    (UdpProcessor.flush s now).2
      = (if s.buffer.isEmpty then s else ⟨[], 0, now⟩) := by
  unfold UdpProcessor.flush UdpProcessor.sendBatch
  cases hb : s.buffer <;> simp [hb]

/-- C5 counterexample: with `batch_size = 2` and a 10-byte record arriving
1 ms after the last flush (interval 1000 ms), the buffer's accumulated
byte size (10) has reached `batch_size`, yet the worker hands nothing to
the sink and keeps the record buffered: the `Write` arm compares
`batch_buffer.len()` — the number of buffered records — against
`batch_size`, not the byte size. -/
theorem claim_C5_counterexample :
    2 ≤ byteSize ((⟨[], 0, []⟩ : WorkerState).buffer ++ [List.replicate 10 65]) ∧
    ¬ (1000 ≤ 1 - (⟨[], 0, []⟩ : WorkerState).lastFlush) ∧
    (ProcessorWorker.step ⟨2, 1000, 16⟩ 1
        (.write (List.replicate 10 65)) ⟨[], 0, []⟩).1
      = ⟨[List.replicate 10 65], 0, []⟩ := by
  decide

/-- C5 amended: `Write(b)` appends `b` to the batch buffer and triggers
`process_batch` exactly when the number of buffered records has reached
`batch_size` or `batch_interval` has elapsed since the last flush, after
which the buffer is cleared and `last_flush` is updated; otherwise the
state is unchanged apart from the appended record. -/
theorem claim_C5_write_batching (cfg : BatchConfig) (now : Nat) (d : Bytes)
    (s : WorkerState) :
    ProcessorWorker.step cfg now (.write d) s
      = (if cfg.batchSize ≤ (s.buffer ++ [d]).length
            ∨ cfg.batchIntervalMs ≤ now - s.lastFlush
         then (⟨[], now, s.events ++ [.processedBatch (s.buffer ++ [d])]⟩, true)
         else (⟨s.buffer ++ [d], s.lastFlush, s.events⟩, true)) := by
  unfold ProcessorWorker.step
  by_cases h : cfg.batchSize ≤ (s.buffer ++ [d]).length
      ∨ cfg.batchIntervalMs ≤ now - s.lastFlush
  · simp only [if_pos h]
    simp [processBatchHelper]
  · simp only [if_neg h]

/-- C2 [code_bug]: with two expected-but-unverified sink workers and the
global ready counter stuck at 1 at every poll, `check_specific_types`
returns success: it waits for the never-reset counter to reach
`expected - already_ready` (here `2 - 1 = 1`), double-counting the
already-counted signal, so success does not require `ready ≥ expected`
and no timeout error is raised. -/
theorem claim_C2_handshake_accepts_early :
    checkSpecificTypes ["file_processor", "udp_processor"] []
        ["file_processor", "udp_processor"] (fun _ => 1) 3 = .ok () ∧
    (["file_processor", "udp_processor"].filter fun t =>
        (["file_processor", "udp_processor"].contains t)
          && !(([] : List String).contains t)).length = 2 ∧
    (∀ i : Nat, (fun _ => (1 : Nat)) i < 2) := by
  exact ⟨by rfl, by rfl, fun i => Nat.one_lt_two⟩

/-- C6 [code_bug]: `cleanup_old_files` lists `base_path.parent()` — the
parent of the log directory — so the `app_*.log*` files inside the log
directory itself are never pruning candidates: with `max_files = 1` and
two matching files in `logs/`, the file system is untouched and the
count stays 2 > 1. -/
theorem claim_C6_prune_wrong_directory :
    cleanupOldFiles
        [⟨["logs"], "app_20250101_000000.log", 5⟩,
         ⟨["logs"], "app_20240101_000000.log.lz4", 1⟩]
        ["logs"] 1
      = [⟨["logs"], "app_20250101_000000.log", 5⟩,
         ⟨["logs"], "app_20240101_000000.log.lz4", 1⟩] ∧
    appLogCount
        [⟨["logs"], "app_20250101_000000.log", 5⟩,
         ⟨["logs"], "app_20240101_000000.log.lz4", 1⟩] ["logs"] = 2 := by
  constructor <;> rfl

/-- C3: within one sink worker, what has been delivered to the sink
followed by what is still buffered is exactly the payload sequence of
the processed channel prefix, in arrival order; each of
`Flush`/`Rotate`/`Compress`/`Shutdown` first hands every pending record
to the sink (one `process_batch` call) and only then performs its own
action; and after `Shutdown` the batch buffer is empty and the loop has
stopped. -/
theorem claim_C3_fifo_and_drain :
    (∀ (cfg : BatchConfig) (s : WorkerState) (cmds : List (Nat × LogCommand)),
      delivered (ProcessorWorker.run cfg s cmds).events
          ++ (ProcessorWorker.run cfg s cmds).buffer
        = delivered s.events ++ s.buffer
            ++ commandPayloads (takeUntilShutdown cmds)) ∧
    (∀ (cfg : BatchConfig) (now : Nat) (s : WorkerState),
      (ProcessorWorker.step cfg now .flush s).1.events
          = s.events ++ batchEvents s.buffer ++ [.flushed]
        ∧ (ProcessorWorker.step cfg now .flush s).1.buffer = []) ∧
    (∀ (cfg : BatchConfig) (now : Nat) (s : WorkerState),
      (ProcessorWorker.step cfg now .rotate s).1.events
          = s.events ++ batchEvents s.buffer ++ [.rotated]
        ∧ (ProcessorWorker.step cfg now .rotate s).1.buffer = []) ∧
    (∀ (cfg : BatchConfig) (now : Nat) (p : String) (s : WorkerState),
      (ProcessorWorker.step cfg now (.compress p) s).1.events
          = s.events ++ batchEvents s.buffer ++ [.compressed p]
        ∧ (ProcessorWorker.step cfg now (.compress p) s).1.buffer = []) ∧
    (∀ (cfg : BatchConfig) (now : Nat) (src : String) (s : WorkerState),
      (ProcessorWorker.step cfg now (.shutdown src) s).1.events
          = s.events ++ batchEvents s.buffer ++ [.flushed, .cleaned]
        ∧ (ProcessorWorker.step cfg now (.shutdown src) s).1.buffer = []
        ∧ (ProcessorWorker.step cfg now (.shutdown src) s).2 = false) := by
  refine ⟨fun cfg s cmds => run_delivered cfg cmds s, ?_, ?_, ?_, ?_⟩
  · intro cfg now s
    unfold ProcessorWorker.step
    by_cases hbuf : s.buffer.isEmpty
    · have hb : s.buffer = [] := List.isEmpty_iff.mp hbuf
      simp [hbuf, hb, batchEvents]
    · simp [hbuf, processBatchHelper_fst, processBatchHelper_snd]
  · intro cfg now s
    unfold ProcessorWorker.step
    by_cases hbuf : s.buffer.isEmpty
    · have hb : s.buffer = [] := List.isEmpty_iff.mp hbuf
      simp [hbuf, hb, batchEvents]
    · simp [hbuf, processBatchHelper_fst, processBatchHelper_snd]
  · intro cfg now p s
    unfold ProcessorWorker.step
    by_cases hbuf : s.buffer.isEmpty
    · have hb : s.buffer = [] := List.isEmpty_iff.mp hbuf
      simp [hbuf, hb, batchEvents]
    · simp [hbuf, processBatchHelper_fst, processBatchHelper_snd]
  · intro cfg now src s
    unfold ProcessorWorker.step
    by_cases hbuf : s.buffer.isEmpty
    · have hb : s.buffer = [] := List.isEmpty_iff.mp hbuf
      simp [hbuf, hb, batchEvents]
    · simp [hbuf, processBatchHelper_fst, processBatchHelper_snd]

/-- C1: `emergency_log` encodes the record and broadcasts `WriteForce` to
every sink worker; an `Error`-level record passing the gate in `log` is
delegated to `emergency_log`; and a worker handling `WriteForce(b)` first
hands whatever is pending in its batch buffer to the sink, clears it,
then processes `b` synchronously and flushes — so the forced record and
all previously buffered records of that sink are delivered and flushed
before the command completes. -/
theorem claim_C1_emergency_force_write :
    (∀ (c : LoggerCore) (r : Record),
      c.emergencyLog r
          = [.encodeRec r, .broadcast (.writeForce (Record.encode r))] ∧
      ∀ i < c.workerCount,
        (i, LogCommand.writeForce (Record.encode r))
          ∈ broadcastWriteForce c.workerCount (Record.encode r)) ∧
    (∀ (c : LoggerCore) (r : Record),
      r.metadata.level = .error → c.shouldLog r.metadata.level = true →
      c.log r = c.emergencyLog r) ∧
    (∀ (cfg : BatchConfig) (now : Nat) (b : Bytes) (s : WorkerState),
      (ProcessorWorker.step cfg now (.writeForce b) s).1.events
          = s.events ++ batchEvents s.buffer ++ [.processedOne b, .flushed]
        ∧ (ProcessorWorker.step cfg now (.writeForce b) s).1.buffer = []
        ∧ delivered (ProcessorWorker.step cfg now (.writeForce b) s).1.events
            = delivered s.events ++ s.buffer ++ [b]) := by
  refine ⟨?_, ?_, ?_⟩
  · intro c r
    refine ⟨rfl, fun i hi => ?_⟩
    simp only [broadcastWriteForce, List.mem_map, List.mem_range]
    exact ⟨i, hi, rfl⟩
  · intro c r h1 h2
    rw [h1] at h2
    simp [LoggerCore.log, h1, h2]
  · intro cfg now b s
    unfold ProcessorWorker.step
    refine ⟨?_, ?_, ?_⟩
    · simp [processBatchHelper_snd]
    · simp [processBatchHelper_fst]
    · simp [processBatchHelper_snd, delivered_append, delivered_batchEvents,
        delivered_cons, delivered_nil, SinkEvent.deliveredOf]

/-- Witness for C1: a two-worker logger at filter `Info` receiving the
concrete `Error`-level record. -/
theorem claim_C1_emergency_force_write_witness :
    sampleErrorRecord.metadata.level = .error ∧
    (⟨.info, false, 2⟩ : LoggerCore).shouldLog sampleErrorRecord.metadata.level
      = true ∧
    (⟨.info, false, 2⟩ : LoggerCore).log sampleErrorRecord
      = (⟨.info, false, 2⟩ : LoggerCore).emergencyLog sampleErrorRecord ∧
    (1, LogCommand.writeForce (Record.encode sampleErrorRecord))
      ∈ broadcastWriteForce 2 (Record.encode sampleErrorRecord) := by
  refine ⟨rfl, by decide, ?_, ?_⟩
  · exact claim_C1_emergency_force_write.2.1 ⟨.info, false, 2⟩ sampleErrorRecord
      rfl (by decide)
  · exact (claim_C1_emergency_force_write.1 ⟨.info, false, 2⟩ sampleErrorRecord).2
      1 (by decide)

end RatLogger
